import Mathlib

/-!
Verification of the schema-salad Python code generator (`schema_salad/python_codegen.py`).

This file gives a shallow embedding of the type-resolution and code-emission
engine of `PythonCodeGen`:

* the loader-descriptor catalog (`TypeDef`, `declare_type`, `add_vocab`,
  from `codegen_base.py`, modelled from the design document since that file
  is not part of the analysed sources),
* the recursive type resolver `type_loader`,
* the field-level wrapper loaders (`uri_loader`, `idmap_loader`,
  `typedsl_loader`, `secondaryfilesdsl_loader`),
* the runtime semantics of the code emitted for a record's `fromDoc`
  (per-field error accumulation from `declare_field`, identifier defaulting
  and base-URI propagation from `declare_id_field`, unknown-key handling
  from `end_class`, the reserved `class` field from `begin_class`),
* the module epilogue (`epilogue`).

Theorems about these definitions settle the design document's claims.
-/

/-- Characters of `cs` strictly after the first occurrence of `sep`,
or `none` if `sep` does not occur. -/
def afterFirst (sep : Char) : List Char → Option (List Char)
  | [] => none
  | c :: cs => if c = sep then some cs else afterFirst sep cs

/-- Characters of `cs` strictly after the last occurrence of `sep`
(all of `cs` if `sep` does not occur). -/
def afterLast (sep : Char) (cs : List Char) : List Char :=
  (cs.reverse.takeWhile (fun c => c ≠ sep)).reverse

/-- Modelled from the spec: `schema.shortname` (in `schema.py`, which is not
among the analysed sources) — the short name of a URI: the fragment when a
`#` is present, otherwise the whole string, in both cases reduced to its
last `/`-separated segment. -/
def shortname (s : String) : String :=
  let cs := s.data
  let frag := match afterFirst '#' cs with
    | some f => f
    | none => cs
  String.mk (afterLast '/' frag)

/-- Modelled from the spec: `schema.avro_field_name` (in `schema.py`, which is
not among the analysed sources) — the identifier-legal short form of a field
or type URI, its last fragment/path segment. -/
def avro_field_name (s : String) : String :=
  shortname s

/-- `PythonCodeGen.safe_name`: short name with the `anon.` namespace stripped
and the Python reserved words `class` and `in` suffixed with `_`. -/
def safe_name (name : String) : String :=
  let avn := avro_field_name name
  let avn := if avn.data.take 5 = "anon.".data then String.mk (avn.data.drop 5) else avn
  if avn = "class" ∨ avn = "in" then avn ++ "_" else avn

/-- `TypeDef` from `codegen_base.py` (modelled from the spec's
`LoaderDescriptor`, matching the fields used by `python_codegen.py`):
a named loader descriptor with its constructor expression and the
serializer-relevant URI metadata. -/
structure TypeDef where
  name : String
  init : String
  is_uri : Bool := false
  scoped_id : Bool := false
  ref_scope : Option Nat := none
  abstract : Bool := false
deriving DecidableEq, Repr

def _string_type_def : TypeDef := { name := "strtype", init := "_PrimitiveLoader(str)" }

def _int_type_def : TypeDef := { name := "inttype", init := "_PrimitiveLoader(int)" }

def _float_type_def : TypeDef := { name := "floattype", init := "_PrimitiveLoader(float)" }

def _bool_type_def : TypeDef := { name := "booltype", init := "_PrimitiveLoader(bool)" }

def _null_type_def : TypeDef := { name := "None_type", init := "_PrimitiveLoader(type(None))" }

def _any_type_def : TypeDef := { name := "Any_type", init := "_AnyLoader()" }

/-- The `prims` table: primitive scalar type names (short and fully qualified)
to their fixed primitive descriptors.  `long` shares the descriptor of `int`
and `double` shares the descriptor of `float`. -/
def prims : List (String × TypeDef) :=
  [ ("http://www.w3.org/2001/XMLSchema#string", _string_type_def),
    ("http://www.w3.org/2001/XMLSchema#int", _int_type_def),
    ("http://www.w3.org/2001/XMLSchema#long", _int_type_def),
    ("http://www.w3.org/2001/XMLSchema#float", _float_type_def),
    ("http://www.w3.org/2001/XMLSchema#double", _float_type_def),
    ("http://www.w3.org/2001/XMLSchema#boolean", _bool_type_def),
    ("https://w3id.org/cwl/salad#null", _null_type_def),
    ("https://w3id.org/cwl/salad#Any", _any_type_def),
    ("string", _string_type_def),
    ("int", _int_type_def),
    ("long", _int_type_def),
    ("float", _float_type_def),
    ("double", _float_type_def),
    ("boolean", _bool_type_def),
    ("null", _null_type_def),
    ("Any", _any_type_def) ]

/-- First-match lookup in an association list keyed by strings
(the behaviour of Python dictionary lookup on our ordered model). -/
def lookupStr {α : Type} : List (String × α) → String → Option α
  | [], _ => none
  | (k, v) :: rest, key => if k = key then some v else lookupStr rest key

/-- Python dictionary assignment `d[k] = v` on an insertion-ordered
association list: update in place if the key exists, else append. -/
def setAssoc : List (String × String) → String → String → List (String × String)
  | [], k, v => [(k, v)]
  | (k', v') :: rest, k, v =>
      if k' = k then (k, v) :: rest else (k', v') :: setAssoc rest k v

/-- The mutable compiler state of `CodeGenBase` used by `python_codegen.py`:
the insertion-ordered loader catalog `collected_types` and the vocabulary
table `vocab` (short enum-symbol name to full URI). -/
structure CodeGenState where
  collectedTypes : List (String × TypeDef)
  vocab : List (String × String)
deriving DecidableEq, Repr

/-- The empty compiler state, before any declaration. -/
def initialState : CodeGenState := { collectedTypes := [], vocab := [] }

/-- Modelled from the spec: `CodeGenBase.declare_type` (in `codegen_base.py`,
which is not among the analysed sources) — the TypeCatalog intern operation:
return the existing descriptor if one with the same name is already in the
catalog, otherwise store the new descriptor (preserving insertion order) and
return it.  No entry is ever removed or mutated. -/
def declare_type (st : CodeGenState) (td : TypeDef) : CodeGenState × TypeDef :=
  match lookupStr st.collectedTypes td.name with
  | some existing => (st, existing)
  | none => ({ st with collectedTypes := st.collectedTypes ++ [(td.name, td)] }, td)

/-- Modelled from the spec: `CodeGenBase.add_vocab` (in `codegen_base.py`,
which is not among the analysed sources) — register a short enum-symbol name
with its full URI in the vocabulary table. -/
def add_vocab (st : CodeGenState) (sn uri : String) : CodeGenState :=
  { st with vocab := setAssoc st.vocab sn uri }

/-- Compiler-time failures of `type_loader`: an unrecognized structured
`type` tag (Python `SchemaException("wft ...")`), a scalar name with no
catalog entry (Python `KeyError` on `collected_types`; the spec's
`UnresolvedTypeReference`), and a missing dictionary key. -/
inductive CGErr where
  | unsupportedTypeShape (tag : String)
  | unresolvedTypeReference (loaderName : String)
  | missingKey (k : String)
deriving DecidableEq, Repr

/-- A type declaration as consumed by `type_loader`: a scalar name, a Python
list of alternatives (a union), or a mapping with a `type` tag and the keys
read by the generator (`name`, `symbols`, `items`, `abstract`). -/
inductive TypeDecl where
  | scalar (s : String)
  | list (alts : List TypeDecl)
  | node (typeTag : String) (name : String) (symbols : List String)
      (items : Option TypeDecl) (abstract : Bool)
deriving Repr

/-- First-occurrence deduplication with a `seen` accumulator. -/
def dedupFirstAux : List String → List String → List String
  | _, [] => []
  | seen, x :: xs =>
      if seen.contains x then dedupFirstAux seen xs
      else x :: dedupFirstAux (x :: seen) xs

/-- Python `list(dict.fromkeys(xs))`: deduplicate, keeping the first
occurrence of each element and preserving order. -/
def dedupFirst (xs : List String) : List String :=
  dedupFirstAux [] xs

/-- Name of the union descriptor synthesized by `type_loader` from the
deduplicated member descriptor names. -/
def unionName (sub_names : List String) : String :=
  "union_of_" ++ String.intercalate "_or_" sub_names

/-- Constructor expression of the union descriptor. -/
def unionInit (sub_names : List String) : String :=
  "_UnionLoader((" ++ String.intercalate ", " sub_names ++ ",))"

/-- Constructor expression of an enum descriptor over the safe names of its
symbols. -/
def enumInit (symbols : List String) : String :=
  "_EnumLoader((\"" ++ String.intercalate "\", \"" (symbols.map safe_name) ++ "\",))"

/-- The union descriptor built from the deduplicated member names before
interning. -/
def unionTypeDef (sub_names : List String) : TypeDef :=
  { name := unionName sub_names, init := unionInit sub_names }

mutual

/-- `PythonCodeGen.type_loader`: parse a type declaration and intern the
loader descriptors for its components, threading the compiler state.
A Python list is a union (member names deduplicated by first occurrence); a
mapping is dispatched on its `type` tag (`array`, `enum`, `record`, in short
or fully qualified form); a scalar is a primitive, `Expression`, or a
reference to an already-interned loader, in that order. -/
def type_loader : CodeGenState → TypeDecl → Except CGErr (CodeGenState × TypeDef)
  | st, .scalar s =>
      match lookupStr prims s with
      | some td => pure (st, td)
      | none =>
          if s = "Expression" ∨ s = "https://w3id.org/cwl/cwl#Expression" then
            pure (declare_type st
              { name := safe_name s ++ "Loader", init := "_ExpressionLoader(str)" })
          else
            match lookupStr st.collectedTypes (safe_name s ++ "Loader") with
            | some td => pure (st, td)
            | none => throw (.unresolvedTypeReference (safe_name s ++ "Loader"))
  | st, .list alts => do
      let (st1, names) ← type_loader_names st alts
      let sub_names := dedupFirst names
      pure (declare_type st1 (unionTypeDef sub_names))
  | st, .node tag nm syms items abs =>
      if tag = "array" ∨ tag = "https://w3id.org/cwl/salad#array" then
        match items with
        | none => throw (.missingKey "items")
        | some it => do
            let (st1, i) ← type_loader st it
            pure (declare_type st1
              { name := "array_of_" ++ i.name, init := "_ArrayLoader(" ++ i.name ++ ")" })
      else if tag = "enum" ∨ tag = "https://w3id.org/cwl/salad#enum" then
        let st1 := syms.foldl (fun a sym => add_vocab a (shortname sym) sym) st
        pure (declare_type st1
          { name := safe_name nm ++ "Loader", init := enumInit syms })
      else if tag = "record" ∨ tag = "https://w3id.org/cwl/salad#record" then
        pure (declare_type st
          { name := safe_name nm ++ "Loader",
            init := "_RecordLoader(" ++ safe_name nm ++ ")",
            abstract := abs })
      else
        throw (.unsupportedTypeShape tag)

/-- Resolve each alternative of a union in declared order, collecting the
resulting descriptor names (the list comprehension
`[self.type_loader(i).name for i in type_declaration]`). -/
def type_loader_names : CodeGenState → List TypeDecl → Except CGErr (CodeGenState × List String)
  | st, [] => pure (st, [])
  | st, t :: ts => do
      let (st1, td) ← type_loader st t
      let (st2, ns) ← type_loader_names st1 ts
      pure (st2, td.name :: ns)

end

/-- Python `str` of a boolean, as interpolated into generated names. -/
def pyBool (b : Bool) : String :=
  if b then "True" else "False"

/-- The decimal digit character for `d < 10`. -/
def digitChar (d : Nat) : Char :=
  Char.ofNat (48 + d)

/-- Decimal digits of `n` (most significant first), with explicit fuel;
`natDigitsAux n n` is exact for every `n`. -/
def natDigitsAux : Nat → Nat → List Char
  | _, 0 => []
  | 0, _ + 1 => []
  | fuel + 1, n + 1 =>
      natDigitsAux fuel ((n + 1) / 10) ++ [digitChar ((n + 1) % 10)]

/-- Python `str` of a natural number (standard decimal notation). -/
def natRepr (n : Nat) : String :=
  if n = 0 then "0" else String.mk (natDigitsAux n n)

/-- Python `str` of an `Optional[int]` reference-scope value, as interpolated
into generated names: `None` or the decimal numeral. -/
def pyOptNat : Option Nat → String
  | none => "None"
  | some n => natRepr n

/-- Python `str` of an `Optional[str]` value: `None` or the string itself. -/
def pyOptStr : Option String → String
  | none => "None"
  | some s => s

/-- The descriptor built by `PythonCodeGen.uri_loader` before interning:
its name combines the inner descriptor's name with `scoped_id`,
`vocab_term` and `ref_scope`. -/
def uri_type_def (inner : TypeDef) (scoped_id vocab_term : Bool)
    (ref_scope : Option Nat) : TypeDef :=
  { name := "uri_" ++ inner.name ++ "_" ++ pyBool scoped_id ++ "_" ++
      pyBool vocab_term ++ "_" ++ pyOptNat ref_scope,
    init := "_URILoader(" ++ inner.name ++ ", " ++ pyBool scoped_id ++ ", " ++
      pyBool vocab_term ++ ", " ++ pyOptNat ref_scope ++ ")",
    is_uri := true, scoped_id := scoped_id, ref_scope := ref_scope }

/-- `PythonCodeGen.uri_loader`: intern the URI wrapper descriptor. -/
def uri_loader (st : CodeGenState) (inner : TypeDef) (scoped_id vocab_term : Bool)
    (ref_scope : Option Nat) : CodeGenState × TypeDef :=
  declare_type st (uri_type_def inner scoped_id vocab_term ref_scope)

/-- The descriptor built by `PythonCodeGen.idmap_loader` before interning:
its name combines only the safe field name and the inner descriptor's name;
`map_subject` and `map_predicate` appear in the constructor expression but
not in the name. -/
def idmap_type_def (field : String) (inner : TypeDef) (map_subject : String)
    (map_predicate : Option String) : TypeDef :=
  { name := "idmap_" ++ safe_name field ++ "_" ++ inner.name,
    init := "_IdMapLoader(" ++ inner.name ++ ", '" ++ map_subject ++ "', '" ++
      pyOptStr map_predicate ++ "')" }

/-- `PythonCodeGen.idmap_loader`: intern the ID-map wrapper descriptor. -/
def idmap_loader (st : CodeGenState) (field : String) (inner : TypeDef)
    (map_subject : String) (map_predicate : Option String) : CodeGenState × TypeDef :=
  declare_type st (idmap_type_def field inner map_subject map_predicate)

/-- The descriptor built by `PythonCodeGen.typedsl_loader` before interning:
its name combines the safe inner name with `ref_scope`. -/
def typedsl_type_def (inner : TypeDef) (ref_scope : Option Nat) : TypeDef :=
  { name := "typedsl_" ++ safe_name inner.name ++ "_" ++ pyOptNat ref_scope,
    init := "_TypeDSLLoader(" ++ safe_name inner.name ++ ", " ++ pyOptNat ref_scope ++ ")" }

/-- `PythonCodeGen.typedsl_loader`: intern the type-DSL wrapper descriptor. -/
def typedsl_loader (st : CodeGenState) (inner : TypeDef) (ref_scope : Option Nat) :
    CodeGenState × TypeDef :=
  declare_type st (typedsl_type_def inner ref_scope)

/-- The descriptor built by `PythonCodeGen.secondaryfilesdsl_loader` before
interning; this wrapper has no parameters besides the inner descriptor. -/
def secondaryfilesdsl_type_def (inner : TypeDef) : TypeDef :=
  { name := "secondaryfilesdsl_" ++ inner.name,
    init := "_SecondaryDSLLoader(" ++ inner.name ++ ")" }

/-- `PythonCodeGen.secondaryfilesdsl_loader`: intern the secondary-files
wrapper descriptor. -/
def secondaryfilesdsl_loader (st : CodeGenState) (inner : TypeDef) :
    CodeGenState × TypeDef :=
  declare_type st (secondaryfilesdsl_type_def inner)

/-- Runtime validation failures raised or accumulated by the generated
`fromDoc` code: the class-discriminator mismatch, a field-scoped wrapper
around a load failure, an undeclared bare key, a missing required
identifier, an abstract underlying load failure, and the final aggregate
(`ValidationException("Trying '...'", None, _errors__)`). -/
inductive VErr where
  | notClass (classname : String)
  | fieldError (fieldname : String) (cause : VErr)
  | invalidField (key : String)
  | missingId (fieldname : String)
  | leaf (msg : String)
  | trying (classname : String) (causes : List VErr)
deriving Repr

/-- Semantics of the identifier-assignment code emitted by
`PythonCodeGen.declare_id_field` (non-abstract class, no subscope):
given the loaded identifier value `val` (from the `declare_field` call for
the id field, `none` when absent), the document root, the field's
optionality, the fresh UUID string for this validation call, and the ambient
base URI, it returns the final identifier value and the base URI in effect
for the remaining field loads, or raises `Missing <field>`.  The base URI is
reassigned only when the original value was not `None`
(the `__original_..._is_none` guard). -/
def declare_id_field_assign (val docRoot : Option String) (optional : Bool)
    (fresh : String) (baseuri : String) (fieldname : String) :
    Except VErr (String × String) := do
  let original_is_none := val.isNone
  let idVal ← match val, docRoot with
    | some v, _ => pure v
    | none, some r => pure r
    | none, none =>
        if optional then pure ("_:" ++ fresh)
        else throw (VErr.missingId (shortname fieldname))
  let baseuri' := if original_is_none then baseuri else idVal
  pure (idVal, baseuri')

/-- A declared record field as passed to `PythonCodeGen.declare_field`. -/
structure FieldDecl where
  name : String
  optional : Bool
deriving DecidableEq, Repr

/-- Error accumulation of the per-field code emitted by
`PythonCodeGen.declare_field` over a record's declared fields, in
declaration order.  `loadResult k` abstracts the outcome of
`load_field(_doc.get(k), ...)` for doc key `k`; a field named `class` emits
no load code; an optional field is attempted only when its key is present
in the document; a failing load appends one field-scoped error and
continues with the next field. -/
def collectFieldErrors (loadResult : String → Except VErr Unit)
    (docKeys : List String) : List FieldDecl → List VErr
  | [] => []
  | f :: fs =>
      let rest := collectFieldErrors loadResult docKeys fs
      if shortname f.name = "class" then rest
      else if f.optional ∧ ¬ docKeys.contains (shortname f.name) then rest
      else
        match loadResult (shortname f.name) with
        | .ok _ => rest
        | .error e => .fieldError (shortname f.name) e :: rest

/-- Semantics of the unknown-field loop emitted by
`PythonCodeGen.end_class`: scan the document keys in order; a declared key
is skipped; an undeclared key containing `:` is captured as an extension
field under its expanded URI; an undeclared key without `:` appends one
`invalid field` error and **breaks out of the loop**.  Returns the captured
extension keys and the accumulated errors. -/
def processUnknownKeys (expandUrl : String → String) (attrs : List String) :
    List String → List String × List VErr
  | [] => ([], [])
  | k :: ks =>
      if attrs.contains k then processUnknownKeys expandUrl attrs ks
      else if k.data.contains ':' then
        let (ext, errs) := processUnknownKeys expandUrl attrs ks
        (expandUrl k :: ext, errs)
      else ([], [.invalidField k])

/-- Semantics of the generated `fromDoc` for a non-abstract record without
an identifier field: the `class` gate from `begin_class` (when `class` is
declared), then per-field error accumulation from `declare_field`, then the
unknown-field loop and the final aggregate raise from `end_class`.  On
success it returns the captured extension keys. -/
def fromDoc (classname : String) (fields : List FieldDecl) (attrs : List String)
    (docKeys : List String) (docClassValue : Option String)
    (loadResult : String → Except VErr Unit) (expandUrl : String → String) :
    Except VErr (List String) :=
  if attrs.contains "class" ∧ docClassValue ≠ some (safe_name classname) then
    .error (.notClass (safe_name classname))
  else
    let fieldErrs := collectFieldErrors loadResult docKeys fields
    let (ext, unkErrs) := processUnknownKeys expandUrl attrs docKeys
    let errs := fieldErrs ++ unkErrs
    if errs.isEmpty then .ok ext
    else .error (.trying (safe_name classname) errs)

/-- `required_field_names` from `PythonCodeGen.begin_class`. -/
def required_field_names (fns ofs : List String) : List String :=
  fns.filter (fun f => ¬ ofs.contains f)

/-- `optional_field_names` from `PythonCodeGen.begin_class`. -/
def optional_field_names (fns ofs : List String) : List String :=
  fns.filter (fun f => ofs.contains f)

/-- The settable parameter names of the generated `__init__` signature
(`safe_inits` in `begin_class`): required fields first, then optional
fields, a field literally named `class` excluded from both. -/
def safe_inits_params (fns ofs : List String) : List String :=
  ((required_field_names fns ofs).filter (fun f => f ≠ "class")).map safe_name ++
    ((optional_field_names fns ofs).filter (fun f => f ≠ "class")).map safe_name

/-- One generated constructor-body assignment: the fixed
`self.class_ = "<Classname>"` literal, or `self.<x> = <x>`. -/
inductive FieldInit where
  | classLit (classname : String)
  | selfAssign (safename : String)
deriving DecidableEq, Repr

/-- The constructor-body assignments emitted by `begin_class`
(`field_inits`): a field named `class` is assigned the record's own safe
class name as a literal, every other field is assigned from its parameter. -/
def field_inits (classname : String) (fns : List String) : List FieldInit :=
  fns.map (fun n =>
    if n = "class" then .classLit (safe_name classname) else .selfAssign (safe_name n))

/-- Whether `begin_class` emits the `_doc.get("class") != "<Classname>"`
validation gate (it does exactly when a field named `class` is declared). -/
def class_check_emitted (fns : List String) : Bool :=
  fns.contains "class"

/-- Semantics of the emitted class gate: the document's `class` key must
equal the record's own safe class name. -/
def class_gate (classname : String) (docClassValue : Option String) : Except VErr Unit :=
  if docClassValue ≠ some (safe_name classname) then .error (.notClass (safe_name classname))
  else .ok ()

/-- The literal `r["class"] = "<Classname>"` written by the serializer,
emitted exactly when a field named `class` is declared. -/
def serializer_class_lit (classname : String) (fns : List String) : Option String :=
  if fns.contains "class" then some (safe_name classname) else none

/-- Whether `declare_field` emits any load code for a field: it returns
immediately when the field's short name is `class`. -/
def declare_field_emits_load (name : String) : Bool :=
  ¬ (shortname name = "class")

/-- The constructor-call arguments of the generated
`return cls(...)` in `end_class` (`safe_init_fields`): every declared field
except one literally named `class`. -/
def safe_init_fields (fns : List String) : List String :=
  (fns.filter (fun f => f ≠ "class")).map safe_name

/-- One item of the module epilogue, in emission order. -/
inductive EmitItem where
  | vocabTable (entries : List (String × String))
  | rvocabTable (entries : List (String × String))
  | binding (name : String) (init : String)
  | loadDocumentDef (rootLoader : String)
  | loadDocumentByStringDef (rootLoader : String)
  | loadDocumentByYamlDef (rootLoader : String)
deriving DecidableEq, Repr

/-- Python `sorted(self.vocab.keys())`. -/
def sortedKeys (vocab : List (String × String)) : List String :=
  (vocab.map Prod.fst).mergeSort (fun a b => decide (a ≤ b))

/-- `self.vocab[k]` (total lookup; every key passed comes from the table). -/
def lookupD (l : List (String × String)) (k : String) : String :=
  (lookupStr l k).getD ""

/-- `PythonCodeGen.epilogue`: the forward vocabulary table over the sorted
short names, the reverse table in the same iteration order, one binding per
non-abstract collected loader in catalog insertion order, then the three
document-loading entry points referencing the root loader. -/
def epilogue (st : CodeGenState) (root_loader : TypeDef) : List EmitItem :=
  let ks := sortedKeys st.vocab
  let es := ks.map (fun k => (k, lookupD st.vocab k))
  [EmitItem.vocabTable es,
   EmitItem.rvocabTable (es.map (fun p => (p.2, p.1)))] ++
    ((st.collectedTypes.filter (fun p => !p.2.abstract)).map
      (fun p => EmitItem.binding p.2.name p.2.init)) ++
    [EmitItem.loadDocumentDef root_loader.name,
     EmitItem.loadDocumentByStringDef root_loader.name,
     EmitItem.loadDocumentByYamlDef root_loader.name]

theorem lookupStr_mem {α : Type} {l : List (String × α)} {k : String} {v : α}
    (h : lookupStr l k = some v) : (k, v) ∈ l := by
  induction l with
  | nil => simp [lookupStr] at h
  | cons p rest ih =>
      obtain ⟨k', v'⟩ := p
      by_cases hk : k' = k
      · subst hk
        simp [lookupStr] at h
        simp [h]
      · simp [lookupStr, hk] at h
        exact List.mem_cons_of_mem _ (ih h)

theorem declare_type_lookup_some {st : CodeGenState} {td t : TypeDef}
    (h : lookupStr st.collectedTypes td.name = some t) :
    declare_type st td = (st, t) := by
  simp [declare_type, h]

/-- Decimal decoding of a most-significant-first digit-character list. -/
def decodeBE (cs : List Char) : Nat :=
  cs.foldl (fun a c => a * 10 + (c.toNat - 48)) 0

theorem digitChar_toNat : ∀ d, d < 10 → (digitChar d).toNat = 48 + d := by decide

theorem decodeBE_append_digit (l : List Char) (c : Char) :
    decodeBE (l ++ [c]) = decodeBE l * 10 + (c.toNat - 48) := by
  simp [decodeBE, List.foldl_append]

theorem natDigitsAux_decode : ∀ fuel n, n ≤ fuel → decodeBE (natDigitsAux fuel n) = n := by
  intro fuel
  induction fuel with
  | zero =>
      intro n hn
      interval_cases n
      simp [natDigitsAux, decodeBE]
  | succ fuel ih =>
      intro n hn
      match n with
      | 0 => simp [natDigitsAux, decodeBE]
      | m + 1 =>
          have hq : (m + 1) / 10 ≤ fuel := by
            have := Nat.div_lt_self (Nat.succ_pos m) (by omega : 1 < 10)
            omega
          have hr : (m + 1) % 10 < 10 := Nat.mod_lt _ (by omega)
          calc decodeBE (natDigitsAux (fuel + 1) (m + 1))
              = decodeBE (natDigitsAux fuel ((m + 1) / 10) ++ [digitChar ((m + 1) % 10)]) := rfl
            _ = decodeBE (natDigitsAux fuel ((m + 1) / 10)) * 10 +
                  ((digitChar ((m + 1) % 10)).toNat - 48) := decodeBE_append_digit _ _
            _ = ((m + 1) / 10) * 10 + ((m + 1) % 10) := by
                  rw [ih _ hq, digitChar_toNat _ hr]
                  omega
            _ = m + 1 := by
                  have := Nat.div_add_mod (m + 1) 10
                  omega

theorem natDigitsAux_digits :
    ∀ fuel n c, c ∈ natDigitsAux fuel n → 48 ≤ c.toNat ∧ c.toNat ≤ 57 := by
  intro fuel
  induction fuel with
  | zero =>
      intro n c hc
      match n with
      | 0 => simp [natDigitsAux] at hc
      | _ + 1 => simp [natDigitsAux] at hc
  | succ fuel ih =>
      intro n c hc
      match n with
      | 0 => simp [natDigitsAux] at hc
      | m + 1 =>
          simp only [natDigitsAux, List.mem_append, List.mem_singleton] at hc
          rcases hc with hc | hc
          · exact ih _ _ hc
          · subst hc
            have hr : (m + 1) % 10 < 10 := Nat.mod_lt _ (by omega)
            rw [digitChar_toNat _ hr]
            omega

theorem natRepr_inj : ∀ n m, natRepr n = natRepr m → n = m := by
  intro n m h
  unfold natRepr at h
  by_cases hn : n = 0 <;> by_cases hm : m = 0 <;> simp [hn, hm] at h ⊢
  · -- n = 0, m ≠ 0
    have hdata : ("0").data = (String.mk (natDigitsAux m m)).data := congrArg String.data h
    have h0 : natDigitsAux m m = ['0'] := by
      simpa using hdata.symm
    have := natDigitsAux_decode m m (Nat.le_refl m)
    rw [h0] at this
    simp [decodeBE] at this
    omega
  · -- n ≠ 0, m = 0
    have hdata : (String.mk (natDigitsAux n n)).data = ("0").data := congrArg String.data h
    have h0 : natDigitsAux n n = ['0'] := by
      simpa using hdata
    have := natDigitsAux_decode n n (Nat.le_refl n)
    rw [h0] at this
    simp [decodeBE] at this
    omega
  · have hdata : natDigitsAux n n = natDigitsAux m m := by
      have := congrArg String.data h
      simpa using this
    have h1 := natDigitsAux_decode n n (Nat.le_refl n)
    have h2 := natDigitsAux_decode m m (Nat.le_refl m)
    rw [hdata] at h1
    omega

theorem natRepr_digits : ∀ n c, c ∈ (natRepr n).data → 48 ≤ c.toNat ∧ c.toNat ≤ 57 := by
  intro n c hc
  unfold natRepr at hc
  by_cases hn : n = 0
  · simp [hn] at hc
    subst hc
    decide
  · simp [hn] at hc
    exact natDigitsAux_digits n n c hc

theorem pyOptNat_inj : ∀ r r' : Option Nat, pyOptNat r = pyOptNat r' → r = r' := by
  intro r r' h
  match r, r' with
  | none, none => rfl
  | some n, some m =>
      simp [pyOptNat] at h
      exact congrArg some (natRepr_inj n m h)
  | none, some m =>
      exfalso
      simp [pyOptNat] at h
      have : 'N' ∈ (natRepr m).data := by
        rw [← h]
        decide
      have := natRepr_digits m 'N' this
      revert this
      decide
  | some n, none =>
      exfalso
      simp [pyOptNat] at h
      have : 'N' ∈ (natRepr n).data := by
        rw [h]
        decide
      have := natRepr_digits n 'N' this
      revert this
      decide

theorem pyBool_cancel : ∀ (s s' : Bool) (l l' : List Char),
    (pyBool s).data ++ l = (pyBool s').data ++ l' → s = s' ∧ l = l' := by
  intro s s' l l' h
  cases s <;> cases s' <;>
    simp [pyBool] at h ⊢ <;>
    simp_all

theorem pyOptNat_data_inj : ∀ r r' : Option Nat,
    (pyOptNat r).data = (pyOptNat r').data → r = r' :=
  fun _ _ h => pyOptNat_inj _ _ (String.ext h)

theorem uri_tail_cancel : ∀ (s v : Bool) (r : Option Nat) (s' v' : Bool) (r' : Option Nat),
    (pyBool s).data ++ ('_' :: ((pyBool v).data ++ ('_' :: (pyOptNat r).data))) =
      (pyBool s').data ++ ('_' :: ((pyBool v').data ++ ('_' :: (pyOptNat r').data))) →
    s = s' ∧ v = v' ∧ r = r' := by
  intro s v r s' v' r' h
  obtain ⟨hs, h1⟩ := pyBool_cancel _ _ _ _ h
  have h2 : (pyBool v).data ++ ('_' :: (pyOptNat r).data) =
      (pyBool v').data ++ ('_' :: (pyOptNat r').data) := by
    exact (List.cons.injEq _ _ _ _).mp h1 |>.2
  obtain ⟨hv, h3⟩ := pyBool_cancel _ _ _ _ h2
  have h4 : (pyOptNat r).data = (pyOptNat r').data :=
    (List.cons.injEq _ _ _ _).mp h3 |>.2
  exact ⟨hs, hv, pyOptNat_data_inj _ _ h4⟩

theorem uri_type_def_name_inj (i : TypeDef) (s v : Bool) (r : Option Nat)
    (s' v' : Bool) (r' : Option Nat) :
    (uri_type_def i s v r).name = (uri_type_def i s' v' r').name ↔
      s = s' ∧ v = v' ∧ r = r' := by
  constructor
  · intro h
    have hd := congrArg String.data h
    simp only [uri_type_def, String.data_append, List.append_assoc] at hd
    replace hd := List.append_cancel_left hd
    replace hd := List.append_cancel_left hd
    replace hd := List.append_cancel_left hd
    simp only [List.singleton_append] at hd
    exact uri_tail_cancel _ _ _ _ _ _ hd
  · rintro ⟨rfl, rfl, rfl⟩
    rfl

theorem typedsl_type_def_name_inj (i : TypeDef) (r r' : Option Nat) :
    (typedsl_type_def i r).name = (typedsl_type_def i r').name ↔ r = r' := by
  constructor
  · intro h
    have hd := congrArg String.data h
    simp only [typedsl_type_def, String.data_append, List.append_assoc] at hd
    replace hd := List.append_cancel_left hd
    replace hd := List.append_cancel_left hd
    replace hd := List.append_cancel_left hd
    exact pyOptNat_data_inj _ _ hd
  · rintro rfl
    rfl

/-- C10: for every state, `type_loader` on the scalar `long` (short or fully
qualified) returns exactly the same primitive descriptor as on `int`, namely
`_int_type_def` with name `inttype`, and on `double` the same descriptor as
on `float`, namely `_float_type_def` with name `floattype`; the state is
untouched, so long/int and double/float are indistinguishable downstream. -/
theorem long_and_double_alias_primitive_descriptors :
    ∀ st : CodeGenState,
      type_loader st (.scalar "long") = .ok (st, _int_type_def) ∧
      type_loader st (.scalar "int") = .ok (st, _int_type_def) ∧
      type_loader st (.scalar "http://www.w3.org/2001/XMLSchema#long") =
        .ok (st, _int_type_def) ∧
      type_loader st (.scalar "http://www.w3.org/2001/XMLSchema#int") =
        .ok (st, _int_type_def) ∧
      type_loader st (.scalar "double") = .ok (st, _float_type_def) ∧
      type_loader st (.scalar "float") = .ok (st, _float_type_def) ∧
      type_loader st (.scalar "http://www.w3.org/2001/XMLSchema#double") =
        .ok (st, _float_type_def) ∧
      type_loader st (.scalar "http://www.w3.org/2001/XMLSchema#float") =
        .ok (st, _float_type_def) ∧
      _int_type_def.name = "inttype" ∧ _float_type_def.name = "floattype" :=
  fun _ => ⟨rfl, rfl, rfl, rfl, rfl, rfl, rfl, rfl, rfl, rfl⟩

/-- C4: in the identifier-assignment code emitted by `declare_id_field`, an
absent identifier value is replaced by the document root URI when one is
provided; otherwise an optional identifier is synthesized as a blank node
from the fresh UUID (distinct UUIDs give distinct identifiers), and a
required identifier raises `Missing <field>`. -/
theorem declare_id_field_absent_defaulting :
    ∀ (docRootVal fresh baseuri fieldname : String) (optional : Bool),
      (declare_id_field_assign none (some docRootVal) optional fresh baseuri fieldname =
        .ok (docRootVal, baseuri)) ∧
      (declare_id_field_assign none none true fresh baseuri fieldname =
        .ok ("_:" ++ fresh, baseuri)) ∧
      (declare_id_field_assign none none false fresh baseuri fieldname =
        .error (.missingId (shortname fieldname))) ∧
      (∀ f f' : String, f ≠ f' → ("_:" ++ f : String) ≠ "_:" ++ f') := by
  intro docRootVal fresh baseuri fieldname optional
  refine ⟨rfl, rfl, rfl, ?_⟩
  intro f f' hne h
  have hd := congrArg String.data h
  simp only [String.data_append] at hd
  exact hne (String.ext (List.append_cancel_left hd))

/-- Witness for C4 at concrete inputs. -/
theorem declare_id_field_absent_defaulting_witness :
    declare_id_field_assign none (some "http://example.com/doc") true "u"
        "http://example.com/base" "id" =
      .ok ("http://example.com/doc", "http://example.com/base") ∧
    ("_:" ++ "a" : String) ≠ "_:" ++ "b" :=
  ⟨(declare_id_field_absent_defaulting "http://example.com/doc" "u"
      "http://example.com/base" "id" true).1,
   (declare_id_field_absent_defaulting "http://example.com/doc" "u"
      "http://example.com/base" "id" true).2.2.2 "a" "b" (by decide)⟩

/-- C3 counterexample: when the identifier is absent and defaulted from the
document root, the base URI for the remaining field loads stays the ambient
one — it does not become the identifier value, contradicting the claim that
a defaulted or synthesized identifier also becomes the base URI. -/
theorem baseuri_unchanged_when_id_defaulted :
    declare_id_field_assign none (some "http://example.com/doc") true "u"
        "http://example.com/base" "id" =
      .ok ("http://example.com/doc", "http://example.com/base") ∧
    "http://example.com/base" ≠ "http://example.com/doc" :=
  ⟨rfl, by decide⟩

/-- C3 amended: subsequent field loads use the identifier value as base URI
only when the identifier was explicitly supplied in the document
(loaded value not `None`); when it is defaulted from the document root or
synthesized, the ambient base URI remains in effect (the
`__original_..._is_none` guard). -/
theorem baseuri_propagation_requires_supplied_id :
    ∀ (v fresh baseuri fieldname : String) (docRoot : Option String) (optional : Bool),
      (declare_id_field_assign (some v) docRoot optional fresh baseuri fieldname =
        .ok (v, v)) ∧
      (∀ idv bu', declare_id_field_assign none docRoot optional fresh baseuri fieldname =
          .ok (idv, bu') → bu' = baseuri) := by
  intro v fresh baseuri fieldname docRoot optional
  refine ⟨rfl, ?_⟩
  intro idv bu' h
  match docRoot with
  | some r =>
      simp [declare_id_field_assign, pure, Except.pure, bind, Except.bind] at h
      exact h.2.symm
  | none =>
      match optional with
      | true =>
          simp [declare_id_field_assign, pure, Except.pure, bind, Except.bind] at h
          exact h.2.symm
      | false =>
          simp [declare_id_field_assign, throw, throwThe, MonadExceptOf.throw,
            Except.map, bind, Except.bind] at h

/-- Witness for the amended C3 at concrete inputs. -/
theorem baseuri_propagation_requires_supplied_id_witness :
    declare_id_field_assign (some "http://example.com/x") (some "http://example.com/doc")
        true "u" "http://example.com/base" "id" =
      .ok ("http://example.com/x", "http://example.com/x") ∧
    "http://example.com/base" = "http://example.com/base" :=
  ⟨(baseuri_propagation_requires_supplied_id "http://example.com/x" "u"
      "http://example.com/base" "id" (some "http://example.com/doc") true).1,
   (baseuri_propagation_requires_supplied_id "http://example.com/x" "u"
      "http://example.com/base" "id" (some "http://example.com/doc") true).2
     "http://example.com/doc" "http://example.com/base" rfl⟩

/-- C6 counterexample: `Colors` is not a primitive, not `Expression`, and the
only interned loader is an enum loader (its constructor expression is an
`_EnumLoader`, not a `_RecordLoader`), yet `type_loader` on the scalar
`Colors` succeeds by returning that enum loader instead of failing with an
unresolved-reference error. -/
theorem scalar_resolves_to_interned_enum_loader :
    lookupStr prims "Colors" = none ∧
    "Colors" ≠ "Expression" ∧
    "Colors" ≠ "https://w3id.org/cwl/cwl#Expression" ∧
    type_loader initialState (.node "enum" "Colors" ["red"] none false) =
      .ok ({ collectedTypes := [("ColorsLoader",
              { name := "ColorsLoader", init := "_EnumLoader((\"red\",))" })],
             vocab := [("red", "red")] },
           { name := "ColorsLoader", init := "_EnumLoader((\"red\",))" }) ∧
    ("_EnumLoader((\"red\",))").data.take 14 ≠ ("_RecordLoader(").data ∧
    type_loader ({ collectedTypes := [("ColorsLoader",
                     { name := "ColorsLoader", init := "_EnumLoader((\"red\",))" })],
                   vocab := [("red", "red")] } : CodeGenState)
        (.scalar "Colors") =
      .ok ({ collectedTypes := [("ColorsLoader",
              { name := "ColorsLoader", init := "_EnumLoader((\"red\",))" })],
             vocab := [("red", "red")] },
           { name := "ColorsLoader", init := "_EnumLoader((\"red\",))" }) :=
  ⟨rfl, by decide, by decide, rfl, by decide, rfl⟩

/-- C6 amended: a scalar type declaration that is not a known primitive, not
`Expression`, and under whose safe name plus `Loader` no descriptor of any
kind has been interned, makes `type_loader` fail with an
unresolved-type-reference error (the Python `KeyError` on
`collected_types`), aborting the run. -/
theorem scalar_without_interned_loader_fails :
    ∀ (st : CodeGenState) (s : String),
      lookupStr prims s = none →
      s ≠ "Expression" →
      s ≠ "https://w3id.org/cwl/cwl#Expression" →
      lookupStr st.collectedTypes (safe_name s ++ "Loader") = none →
      type_loader st (.scalar s) =
        .error (.unresolvedTypeReference (safe_name s ++ "Loader")) := by
  intro st s h1 h2 h3 h4
  simp [type_loader, h1, h2, h3, h4, throw, throwThe, MonadExceptOf.throw]

/-- Witness for the amended C6 at a concrete input. -/
theorem scalar_without_interned_loader_fails_witness :
    type_loader initialState (.scalar "Foo") =
      .error (.unresolvedTypeReference (safe_name "Foo" ++ "Loader")) :=
  scalar_without_interned_loader_fails initialState "Foo" rfl (by decide) (by decide) rfl

/-- C1 counterexample: the unions `[string, int]` and `[int, string]` have
alternatives resolving to the same set of member descriptor names, but
`type_loader` generates the distinct names `union_of_strtype_or_inttype`
and `union_of_inttype_or_strtype`, and the second union is interned as a
second catalog entry instead of sharing the first. -/
theorem union_name_depends_on_declared_order :
    type_loader initialState (.list [.scalar "string", .scalar "int"]) =
      .ok ({ collectedTypes := [("union_of_strtype_or_inttype",
               { name := "union_of_strtype_or_inttype",
                 init := "_UnionLoader((strtype, inttype,))" })],
             vocab := [] },
           { name := "union_of_strtype_or_inttype",
             init := "_UnionLoader((strtype, inttype,))" }) ∧
    type_loader ({ collectedTypes := [("union_of_strtype_or_inttype",
                     { name := "union_of_strtype_or_inttype",
                       init := "_UnionLoader((strtype, inttype,))" })],
                   vocab := [] } : CodeGenState)
        (.list [.scalar "int", .scalar "string"]) =
      .ok ({ collectedTypes := [("union_of_strtype_or_inttype",
               { name := "union_of_strtype_or_inttype",
                 init := "_UnionLoader((strtype, inttype,))" }),
             ("union_of_inttype_or_strtype",
               { name := "union_of_inttype_or_strtype",
                 init := "_UnionLoader((inttype, strtype,))" })],
             vocab := [] },
           { name := "union_of_inttype_or_strtype",
             init := "_UnionLoader((inttype, strtype,))" }) ∧
    ("union_of_strtype_or_inttype" : String) ≠ "union_of_inttype_or_strtype" :=
  ⟨rfl, rfl, by decide⟩

/-- C1 amended: the generated union name is determined by the member
descriptor names deduplicated by first occurrence *in declared order*: two
union declarations whose resolved member-name lists are equal after that
deduplication produce the identical descriptor and intern under one shared
catalog entry (interning an already-present name returns the existing
entry), but a same set in a different declared order generally yields a
different name. -/
theorem union_interning_dedup_order :
    (∀ (st1 st2 st1' st2' : CodeGenState) (ds1 ds2 : List TypeDecl)
        (ns1 ns2 : List String),
      type_loader_names st1 ds1 = .ok (st1', ns1) →
      type_loader_names st2 ds2 = .ok (st2', ns2) →
      dedupFirst ns1 = dedupFirst ns2 →
      unionTypeDef (dedupFirst ns1) = unionTypeDef (dedupFirst ns2) ∧
      type_loader st1 (.list ds1) =
        .ok (declare_type st1' (unionTypeDef (dedupFirst ns1))) ∧
      type_loader st2 (.list ds2) =
        .ok (declare_type st2' (unionTypeDef (dedupFirst ns2)))) ∧
    (∀ (st : CodeGenState) (td t : TypeDef),
      lookupStr st.collectedTypes td.name = some t → declare_type st td = (st, t)) := by
  constructor
  · intro st1 st2 st1' st2' ds1 ds2 ns1 ns2 h1 h2 hdedup
    refine ⟨by rw [hdedup], ?_, ?_⟩
    · simp [type_loader, h1, bind, Except.bind, pure, Except.pure]
    · simp [type_loader, h2, bind, Except.bind, pure, Except.pure]
  · intro st td t h
    exact declare_type_lookup_some h

/-- Witness for the amended C1: `[string, int]` and `[string, long, int]`
resolve to different member-name lists with the same first-occurrence
deduplication, hence the same union descriptor. -/
theorem union_interning_dedup_order_witness :
    unionTypeDef (dedupFirst ["strtype", "inttype"]) =
        unionTypeDef (dedupFirst ["strtype", "inttype", "inttype"]) ∧
      type_loader initialState (.list [.scalar "string", .scalar "int"]) =
        .ok (declare_type initialState (unionTypeDef (dedupFirst ["strtype", "inttype"]))) ∧
      type_loader initialState (.list [.scalar "string", .scalar "long", .scalar "int"]) =
        .ok (declare_type initialState
          (unionTypeDef (dedupFirst ["strtype", "inttype", "inttype"]))) :=
  union_interning_dedup_order.1 initialState initialState initialState initialState
    [.scalar "string", .scalar "int"] [.scalar "string", .scalar "long", .scalar "int"]
    ["strtype", "inttype"] ["strtype", "inttype", "inttype"] rfl rfl rfl

/-- C7 counterexample: two ID-map wrappers over the same field and inner
descriptor but different `map_subject` parameters build different
descriptors with the *same* name, so the second interning call collides
with the first and returns the first wrapper's descriptor (whose
constructor expression still names `subj1`). -/
theorem idmap_name_ignores_map_parameters :
    idmap_loader initialState "f" _string_type_def "subj1" none =
      ({ collectedTypes := [("idmap_f_strtype",
           { name := "idmap_f_strtype",
             init := "_IdMapLoader(strtype, 'subj1', 'None')" })],
         vocab := [] },
       { name := "idmap_f_strtype",
         init := "_IdMapLoader(strtype, 'subj1', 'None')" }) ∧
    idmap_loader ({ collectedTypes := [("idmap_f_strtype",
                      { name := "idmap_f_strtype",
                        init := "_IdMapLoader(strtype, 'subj1', 'None')" })],
                    vocab := [] } : CodeGenState)
        "f" _string_type_def "subj2" none =
      ({ collectedTypes := [("idmap_f_strtype",
           { name := "idmap_f_strtype",
             init := "_IdMapLoader(strtype, 'subj1', 'None')" })],
         vocab := [] },
       { name := "idmap_f_strtype",
         init := "_IdMapLoader(strtype, 'subj1', 'None')" }) ∧
    idmap_type_def "f" _string_type_def "subj1" none ≠
      idmap_type_def "f" _string_type_def "subj2" none ∧
    ( idmap_type_def "f" _string_type_def "subj1" none).name =
      ( idmap_type_def "f" _string_type_def "subj2" none).name :=
  ⟨rfl, rfl, by decide, rfl⟩

/-- C7 amended: the URI and type-DSL wrappers intern descriptors whose names
are determined by the inner descriptor's name together with *all* of their
parameters — equal parameters give equal names and differing parameters
give differing names; the secondary-files wrapper has no parameters beyond
the inner descriptor; but the ID-map wrapper's name is built from the field
name and inner name only, ignoring `map_subject`/`map_predicate`, so two
ID-map wrappers differing only there share (collide to) one interned
loader, the existing catalog entry being returned on re-interning. -/
theorem wrapper_name_keying :
    (∀ (i : TypeDef) (s v : Bool) (r : Option Nat) (s' v' : Bool) (r' : Option Nat),
      (uri_type_def i s v r).name = (uri_type_def i s' v' r').name ↔
        s = s' ∧ v = v' ∧ r = r') ∧
    (∀ (i : TypeDef) (r r' : Option Nat),
      (typedsl_type_def i r).name = (typedsl_type_def i r').name ↔ r = r') ∧
    (∀ (i i' : TypeDef) (s v : Bool) (r : Option Nat), i.name = i'.name →
      (uri_type_def i s v r).name = (uri_type_def i' s v r).name) ∧
    (∀ (i i' : TypeDef), i.name = i'.name →
      (secondaryfilesdsl_type_def i).name = (secondaryfilesdsl_type_def i').name) ∧
    (∀ (f : String) (i : TypeDef) (ms ms' : String) (mp mp' : Option String),
      (idmap_type_def f i ms mp).name = (idmap_type_def f i ms' mp').name) ∧
    (∀ (st : CodeGenState) (td t : TypeDef),
      lookupStr st.collectedTypes td.name = some t → declare_type st td = (st, t)) := by
  refine ⟨uri_type_def_name_inj, typedsl_type_def_name_inj, ?_, ?_, ?_, ?_⟩
  · intro i i' s v r h
    simp [uri_type_def, h]
  · intro i i' h
    simp [secondaryfilesdsl_type_def, h]
  · intro f i ms ms' mp mp'
    rfl
  · intro st td t h
    exact declare_type_lookup_some h

/-- Witness for the amended C7 at concrete inputs. -/
theorem wrapper_name_keying_witness :
    (uri_type_def _string_type_def true false (some 1)).name =
      (uri_type_def ({ name := "strtype", init := "other" } : TypeDef)
        true false (some 1)).name ∧
    declare_type ({ collectedTypes := [("idmap_f_strtype",
                      { name := "idmap_f_strtype",
                        init := "_IdMapLoader(strtype, 'subj1', 'None')" })],
                    vocab := [] } : CodeGenState)
        ( idmap_type_def "f" _string_type_def "subj2" none) =
      ({ collectedTypes := [("idmap_f_strtype",
           { name := "idmap_f_strtype",
             init := "_IdMapLoader(strtype, 'subj1', 'None')" })],
         vocab := [] },
       { name := "idmap_f_strtype",
         init := "_IdMapLoader(strtype, 'subj1', 'None')" }) :=
  ⟨wrapper_name_keying.2.2.1 _string_type_def
     { name := "strtype", init := "other" } true false (some 1) rfl,
   wrapper_name_keying.2.2.2.2.2 _
     ( idmap_type_def "f" _string_type_def "subj2" none) _ rfl⟩

/-- The error entry contributed by one declared field: `none` when the field
emits no load code (`class`), is optional and absent, or loads
successfully; otherwise the field-scoped wrapper around the load failure. -/
def fieldFailEntry (loadResult : String → Except VErr Unit) (docKeys : List String)
    (f : FieldDecl) : Option VErr :=
  if shortname f.name = "class" then none
  else if f.optional ∧ ¬ docKeys.contains (shortname f.name) then none
  else
    match loadResult (shortname f.name) with
    | .ok _ => none
    | .error e => some (.fieldError (shortname f.name) e)

/-- Whether a declared field is attempted and fails to load. -/
def fieldInvalid (loadResult : String → Except VErr Unit) (docKeys : List String)
    (f : FieldDecl) : Bool :=
  if shortname f.name = "class" then false
  else if f.optional ∧ ¬ docKeys.contains (shortname f.name) then false
  else
    match loadResult (shortname f.name) with
    | .ok _ => false
    | .error _ => true

theorem collectFieldErrors_eq_filterMap (loadResult : String → Except VErr Unit)
    (docKeys : List String) (fs : List FieldDecl) :
    collectFieldErrors loadResult docKeys fs = fs.filterMap (fieldFailEntry loadResult docKeys) := by
  induction fs with
  | nil => rfl
  | cons f fs ih =>
      simp only [collectFieldErrors, List.filterMap_cons, fieldFailEntry]
      by_cases h1 : shortname f.name = "class"
      · simp [h1, ih]
      · by_cases hopt : f.optional = true
        · by_cases hin : shortname f.name ∈ docKeys
          · cases hl : loadResult (shortname f.name) with
            | ok u => simp [h1, hopt, hin, hl, ih]
            | error e => simp [h1, hopt, hin, hl, ih]
          · simp [h1, hopt, hin, ih]
        · cases hl : loadResult (shortname f.name) with
          | ok u => simp [h1, hopt, hl, ih]
          | error e => simp [h1, hopt, hl, ih]

theorem filterMap_fail_length (loadResult : String → Except VErr Unit)
    (docKeys : List String) (fs : List FieldDecl) :
    (fs.filterMap (fieldFailEntry loadResult docKeys)).length =
      fs.countP (fieldInvalid loadResult docKeys) := by
  induction fs with
  | nil => rfl
  | cons f fs ih =>
      simp only [List.filterMap_cons, List.countP_cons, fieldFailEntry, fieldInvalid]
      by_cases h1 : shortname f.name = "class"
      · simp [h1, ih]
      · by_cases hopt : f.optional = true
        · by_cases hin : shortname f.name ∈ docKeys
          · have h2 : ¬ (f.optional = true ∧ ¬ docKeys.contains (shortname f.name) = true) := by
              simp [hin]
            simp only [if_neg h1, if_neg h2]
            cases hl : loadResult (shortname f.name) with
            | ok u => simp [hl, ih]
            | error e => simp [hl, ih]
          · have h2 : f.optional = true ∧ ¬ docKeys.contains (shortname f.name) = true := by
              simp [hopt, hin]
            simp only [if_neg h1, if_pos h2]
            simp [ih]
        · have h2 : ¬ (f.optional = true ∧ ¬ docKeys.contains (shortname f.name) = true) := by
            simp [hopt]
          simp only [if_neg h1, if_neg h2]
          cases hl : loadResult (shortname f.name) with
          | ok u => simp [hl, ih]
          | error e => simp [hl, ih]

theorem processUnknownKeys_all_declared (expandUrl : String → String)
    (attrs : List String) :
    ∀ ks : List String, (∀ k ∈ ks, attrs.contains k = true) →
      processUnknownKeys expandUrl attrs ks = ([], []) := by
  intro ks
  induction ks with
  | nil => intro _; rfl
  | cons k ks ih =>
      intro h
      have hk : k ∈ attrs := by simpa using h k (List.mem_cons_self _ _)
      have hstep : processUnknownKeys expandUrl attrs (k :: ks) =
          processUnknownKeys expandUrl attrs ks := by
        simp [processUnknownKeys, hk]
      rw [hstep]
      exact ih (fun k' hk' => h k' (List.mem_cons_of_mem _ hk'))

/-- C2: for a record whose document contains only declared keys (and a
matching class discriminator where applicable), when any declared field
fails to load, the generated `fromDoc` raises, at the end of construction,
one aggregate failure whose nested-cause list has exactly one entry per
invalid field, in declaration order — it never stops at the first invalid
field. -/
theorem fromDoc_reports_every_invalid_field :
    ∀ (classname : String) (fields : List FieldDecl) (attrs docKeys : List String)
      (docClassValue : Option String) (loadResult : String → Except VErr Unit)
      (expandUrl : String → String),
      (∀ k ∈ docKeys, attrs.contains k = true) →
      (attrs.contains "class" = true → docClassValue = some (safe_name classname)) →
      fields.countP (fieldInvalid loadResult docKeys) ≠ 0 →
      fromDoc classname fields attrs docKeys docClassValue loadResult expandUrl =
        .error (.trying (safe_name classname)
          (fields.filterMap (fieldFailEntry loadResult docKeys))) ∧
      (fields.filterMap (fieldFailEntry loadResult docKeys)).length =
        fields.countP (fieldInvalid loadResult docKeys) := by
  intro cn fields attrs dk dcv lr eu hkeys hclass hN
  have hlen := filterMap_fail_length lr dk fields
  have hcollect := collectFieldErrors_eq_filterMap lr dk fields
  have hunk := processUnknownKeys_all_declared eu attrs dk hkeys
  obtain ⟨e, es, hfm⟩ : ∃ e es, fields.filterMap (fieldFailEntry lr dk) = e :: es := by
    cases hcase : fields.filterMap (fieldFailEntry lr dk) with
    | nil =>
        rw [hcase] at hlen
        simp at hlen
        exact absurd hlen.symm hN
    | cons e es => exact ⟨e, es, rfl⟩
  refine ⟨?_, hlen⟩
  have hgate : ¬ (attrs.contains "class" = true ∧ dcv ≠ some (safe_name cn)) := by
    rintro ⟨hc, hne'⟩
    exact hne' (hclass hc)
  rw [fromDoc, if_neg hgate, hunk, hcollect, hfm]
  simp

/-- Witness for C2: a record with two invalid fields (one required, one
optional but present) and one valid field reports exactly the two nested
causes. -/
theorem fromDoc_reports_every_invalid_field_witness :
    fromDoc "Rec" [⟨"a", false⟩, ⟨"b", true⟩, ⟨"c", false⟩] ["a", "b", "c"]
        ["a", "b"] none
        (fun k => if k = "c" then Except.ok () else Except.error (VErr.leaf k))
        (fun k => k) =
      .error (.trying (safe_name "Rec")
        ([⟨"a", false⟩, ⟨"b", true⟩, ⟨"c", false⟩].filterMap
          (fieldFailEntry
            (fun k => if k = "c" then Except.ok () else Except.error (VErr.leaf k))
            ["a", "b"]))) ∧
    ([⟨"a", false⟩, ⟨"b", true⟩, ⟨"c", false⟩].filterMap
        (fieldFailEntry
          (fun k => if k = "c" then Except.ok () else Except.error (VErr.leaf k))
          ["a", "b"])).length =
      [⟨"a", false⟩, ⟨"b", true⟩, ⟨"c", false⟩].countP
        (fieldInvalid
          (fun k => if k = "c" then Except.ok () else Except.error (VErr.leaf k))
          ["a", "b"]) :=
  fromDoc_reports_every_invalid_field "Rec" _ _ _ _ _ _
    (by decide) (by decide) (by decide)

/-- Whether a document key is undeclared and carries no `:` prefix. -/
def bareUnknown (attrs : List String) (k : String) : Bool :=
  !attrs.contains k && !k.data.contains ':'

/-- Whether a document key is undeclared and carries a `:` prefix. -/
def extUnknown (attrs : List String) (k : String) : Bool :=
  !attrs.contains k && k.data.contains ':'

/-- C5 counterexample: with declared set `[x]` and document keys
`[a, ex:b]`, the bare unknown key `a` adds one error and breaks the scan,
so the namespaced unknown key `ex:b` is *not* captured as an extension
field; likewise two bare unknown keys `[a, b]` yield only one error, not
one per key. -/
theorem unknown_key_scan_stops_at_first_bare_key :
    processUnknownKeys (fun k => k) ["x"] ["a", "ex:b"] = ([], [.invalidField "a"]) ∧
    ("ex:b").data.contains ':' = true ∧
    (["x"] : List String).contains "ex:b" = false ∧
    (processUnknownKeys (fun k => k) ["x"] ["a", "ex:b"]).1.contains "ex:b" = false ∧
    processUnknownKeys (fun k => k) ([] : List String) ["a", "b"] =
      ([], [.invalidField "a"]) :=
  ⟨rfl, by decide, by decide, by decide, rfl⟩

/-- C5 amended: the unknown-key scan processes document keys in order;
every undeclared namespaced key *before the first undeclared bare key* is
captured as an extension field, the first undeclared bare key contributes
exactly one accumulated validation error, and the scan stops there — later
keys are neither captured nor reported.  When no undeclared bare key
exists, all undeclared namespaced keys are captured and no error is
added. -/
theorem processUnknownKeys_characterization :
    ∀ (expandUrl : String → String) (attrs keys : List String),
      processUnknownKeys expandUrl attrs keys =
        (((keys.takeWhile (fun k => !bareUnknown attrs k)).filter
            (extUnknown attrs)).map expandUrl,
          match keys.dropWhile (fun k => !bareUnknown attrs k) with
          | [] => []
          | k :: _ => [.invalidField k]) := by
  intro expandUrl attrs keys
  induction keys with
  | nil => rfl
  | cons k ks ih =>
      by_cases hc : k ∈ attrs
      · have hb : (!bareUnknown attrs k) = true := by simp [bareUnknown, hc]
        have he : extUnknown attrs k = false := by simp [extUnknown, hc]
        have hstep : processUnknownKeys expandUrl attrs (k :: ks) =
            processUnknownKeys expandUrl attrs ks := by
          simp [processUnknownKeys, hc]
        rw [hstep, ih]
        simp only [List.takeWhile_cons, List.dropWhile_cons, hb, if_true,
          List.filter_cons, he]
        simp
      · by_cases hcol : ':' ∈ k.data
        · have hb : (!bareUnknown attrs k) = true := by simp [bareUnknown, hcol]
          have he : extUnknown attrs k = true := by simp [extUnknown, hc, hcol]
          have hstep : processUnknownKeys expandUrl attrs (k :: ks) =
              (expandUrl k :: (processUnknownKeys expandUrl attrs ks).1,
                (processUnknownKeys expandUrl attrs ks).2) := by
            simp [processUnknownKeys, hc, hcol]
          rw [hstep, ih]
          simp only [List.takeWhile_cons, List.dropWhile_cons, hb, if_true,
            List.filter_cons, he]
          simp
        · have hb : (!bareUnknown attrs k) = false := by
            simp [bareUnknown, hc, hcol]
          have hstep : processUnknownKeys expandUrl attrs (k :: ks) =
              ([], [.invalidField k]) := by
            simp [processUnknownKeys, hc, hcol]
          rw [hstep]
          simp only [List.takeWhile_cons, List.dropWhile_cons, hb]
          simp

/-- C8: a field literally named `class` is never a settable constructor
parameter (every `__init__` parameter and every `cls(...)` argument comes
from a non-`class` field), its constructor assignment is the fixed literal
of the record's own safe class name, `fromDoc` validates the document's
`class` key against that name, the serializer writes it as a literal, and
`declare_field` emits no load code for it. -/
theorem class_field_reserved_handling :
    ∀ (classname : String) (fns ofs : List String),
      "class" ∈ fns →
      (∀ p ∈ safe_inits_params fns ofs, ∃ f, f ∈ fns ∧ f ≠ "class" ∧ p = safe_name f) ∧
      FieldInit.classLit (safe_name classname) ∈ field_inits classname fns ∧
      class_check_emitted fns = true ∧
      (∀ v, class_gate classname v = .ok () ↔ v = some (safe_name classname)) ∧
      serializer_class_lit classname fns = some (safe_name classname) ∧
      declare_field_emits_load "class" = false ∧
      (∀ a ∈ safe_init_fields fns, ∃ f, f ∈ fns ∧ f ≠ "class" ∧ a = safe_name f) := by
  intro cn fns ofs hmem
  refine ⟨?_, ?_, ?_, ?_, ?_, ?_, ?_⟩
  · intro p hp
    simp only [safe_inits_params, required_field_names, optional_field_names,
      List.mem_append, List.mem_map, List.mem_filter] at hp
    rcases hp with ⟨f, ⟨⟨hf, _⟩, hC⟩, rfl⟩ | ⟨f, ⟨⟨hf, _⟩, hC⟩, rfl⟩ <;>
      exact ⟨f, hf, by simpa using hC, rfl⟩
  · exact List.mem_map.mpr ⟨"class", hmem, by simp⟩
  · simp [class_check_emitted, hmem]
  · intro v
    by_cases h : v = some (safe_name cn) <;> simp [class_gate, h]
  · simp [serializer_class_lit, hmem]
  · decide
  · intro a ha
    simp only [safe_init_fields, List.mem_map, List.mem_filter] at ha
    rcases ha with ⟨f, ⟨hf, hC⟩, rfl⟩
    exact ⟨f, hf, by simpa using hC, rfl⟩

/-- Witness for C8 on a concrete record with fields `class`, `id`, `doc`. -/
theorem class_field_reserved_handling_witness :
    (∀ p ∈ safe_inits_params ["class", "id", "doc"] ["doc"],
      ∃ f, f ∈ ["class", "id", "doc"] ∧ f ≠ "class" ∧ p = safe_name f) ∧
    FieldInit.classLit (safe_name "Foo") ∈ field_inits "Foo" ["class", "id", "doc"] ∧
    class_check_emitted ["class", "id", "doc"] = true ∧
    (∀ v, class_gate "Foo" v = .ok () ↔ v = some (safe_name "Foo")) ∧
    serializer_class_lit "Foo" ["class", "id", "doc"] = some (safe_name "Foo") ∧
    declare_field_emits_load "class" = false ∧
    (∀ a ∈ safe_init_fields ["class", "id", "doc"],
      ∃ f, f ∈ ["class", "id", "doc"] ∧ f ≠ "class" ∧ a = safe_name f) :=
  class_field_reserved_handling "Foo" ["class", "id", "doc"] ["doc"] (by simp)

theorem sortedKeys_sorted (vocab : List (String × String)) :
    (sortedKeys vocab).Pairwise (fun a b : String => a ≤ b) := by
  have h := @List.sorted_mergeSort String (fun a b : String => decide (a ≤ b))
    (fun a b c hab hbc =>
      decide_eq_true (le_trans (of_decide_eq_true hab) (of_decide_eq_true hbc)))
    (fun a b => by rcases le_total a b with h | h <;> simp [h])
    (vocab.map Prod.fst)
  exact h.imp (fun hab => of_decide_eq_true hab)

theorem sortedKeys_perm (vocab : List (String × String)) :
    (sortedKeys vocab).Perm (vocab.map Prod.fst) :=
  List.mergeSort_perm _ _

theorem assoc_reconstruct :
    ∀ l : List (String × String), (l.map Prod.fst).Nodup →
      (l.map Prod.fst).map (fun k => (k, lookupD l k)) = l := by
  intro l
  induction l with
  | nil => intro _; rfl
  | cons p rest ih =>
      intro hnd
      obtain ⟨k, v⟩ := p
      simp only [List.map_cons, List.nodup_cons] at hnd ⊢
      rw [show lookupD ((k, v) :: rest) k = v by simp [lookupD, lookupStr]]
      have hrest : ∀ k' ∈ rest.map Prod.fst,
          (fun k' => (k', lookupD ((k, v) :: rest) k')) k' =
            (fun k' => (k', lookupD rest k')) k' := by
        intro k' hk'
        have hne : ¬ (k = k') := fun h => hnd.1 (h ▸ hk')
        simp [lookupD, lookupStr, hne]
      rw [List.map_congr_left hrest, ih hnd.2]

/-- C9: `epilogue` emits, in order, the forward vocabulary table sorted by
short name, the reverse table in the same order, one binding per interned
non-abstract loader (and none for abstract ones) in catalog insertion
order, then the three document-loading entry points bound to the root
loader; the vocabulary entries are exactly the accumulated table. -/
theorem epilogue_emission_order :
    ∀ (st : CodeGenState) (root : TypeDef),
      (st.vocab.map Prod.fst).Nodup →
      ∃ es : List (String × String),
        epilogue st root =
          [EmitItem.vocabTable es,
           EmitItem.rvocabTable (es.map (fun p => (p.2, p.1)))] ++
            ((st.collectedTypes.filter (fun p => !p.2.abstract)).map
              (fun p => EmitItem.binding p.2.name p.2.init)) ++
            [EmitItem.loadDocumentDef root.name,
             EmitItem.loadDocumentByStringDef root.name,
             EmitItem.loadDocumentByYamlDef root.name] ∧
        (es.map Prod.fst).Pairwise (fun a b : String => a ≤ b) ∧
        es.Perm st.vocab ∧
        (∀ nm i, EmitItem.binding nm i ∈ epilogue st root ↔
          ∃ k td, (k, td) ∈ st.collectedTypes ∧ td.abstract = false ∧
            nm = td.name ∧ i = td.init) := by
  intro st root hnodup
  refine ⟨(sortedKeys st.vocab).map (fun k => (k, lookupD st.vocab k)), rfl, ?_, ?_, ?_⟩
  · have hfst : ((sortedKeys st.vocab).map (fun k => (k, lookupD st.vocab k))).map Prod.fst =
        sortedKeys st.vocab := by
      rw [List.map_map]
      rw [show (Prod.fst ∘ fun k => (k, lookupD st.vocab k)) = id from funext (fun k => rfl)]
      exact List.map_id _
    rw [hfst]
    exact sortedKeys_sorted _
  · have h1 := (sortedKeys_perm st.vocab).map (fun k => (k, lookupD st.vocab k))
    rw [assoc_reconstruct st.vocab hnodup] at h1
    exact h1
  · intro nm i
    constructor
    · intro hmem
      simp only [epilogue] at hmem
      rw [List.mem_append] at hmem
      rcases hmem with hfront | hlast
      · rw [List.mem_append] at hfront
        rcases hfront with htab | hbind
        · simp at htab
        · simp only [List.mem_map, List.mem_filter] at hbind
          obtain ⟨⟨k, td⟩, ⟨hp, habs⟩, heq⟩ := hbind
          injection heq with h1 h2
          exact ⟨k, td, hp, by simpa using habs, h1.symm, h2.symm⟩
      · simp at hlast
    · rintro ⟨k, td, hmem, habs, rfl, rfl⟩
      simp only [epilogue, List.mem_append, List.mem_map, List.mem_filter]
      exact Or.inl (Or.inr ⟨(k, td), ⟨hmem, by simp [habs]⟩, rfl⟩)

/-- Witness for C9: a concrete catalog with one abstract and one concrete
loader and an unsorted two-entry vocabulary. -/
theorem epilogue_emission_order_witness :
    ∃ es : List (String × String),
      epilogue ({ collectedTypes := [("strtype", _string_type_def),
                    ("AbsLoader", { name := "AbsLoader", init := "_RecordLoader(Abs)",
                                    abstract := true })],
                  vocab := [("b", "urn:B"), ("a", "urn:A")] } : CodeGenState)
          _string_type_def =
        [EmitItem.vocabTable es,
         EmitItem.rvocabTable (es.map (fun p => (p.2, p.1)))] ++
          ((([("strtype", _string_type_def),
              ("AbsLoader", { name := "AbsLoader", init := "_RecordLoader(Abs)",
                              abstract := true })] :
                List (String × TypeDef)).filter (fun p => !p.2.abstract)).map
            (fun p => EmitItem.binding p.2.name p.2.init)) ++
          [EmitItem.loadDocumentDef _string_type_def.name,
           EmitItem.loadDocumentByStringDef _string_type_def.name,
           EmitItem.loadDocumentByYamlDef _string_type_def.name] ∧
      (es.map Prod.fst).Pairwise (fun a b : String => a ≤ b) ∧
      es.Perm [("b", "urn:B"), ("a", "urn:A")] ∧
      (∀ nm i, EmitItem.binding nm i ∈
          epilogue ({ collectedTypes := [("strtype", _string_type_def),
                        ("AbsLoader", { name := "AbsLoader", init := "_RecordLoader(Abs)",
                                        abstract := true })],
                      vocab := [("b", "urn:B"), ("a", "urn:A")] } : CodeGenState)
            _string_type_def ↔
        ∃ k td, (k, td) ∈ ([("strtype", _string_type_def),
            ("AbsLoader", { name := "AbsLoader", init := "_RecordLoader(Abs)",
                            abstract := true })] : List (String × TypeDef)) ∧
          td.abstract = false ∧ nm = td.name ∧ i = td.init) :=
  epilogue_emission_order _ _string_type_def (by decide)
